import Mathlib

/-!
Verification of the guppy-gpu bit-packing transport layer and GPU call-signature
validation logic, shallowly embedded from `src/guppy_gpu/cudaq_qec.py`,
`src/guppy_gpu/api.py` and `src/guppy_gpu/definition.py`.

Conventions of the embedding:
* Guppy `int` words crossing the transport boundary are unsigned 64-bit values
  per the module documentation ("bit-packed uint64 integers"); they are modelled
  as `Nat`.
* `array[bool, N]` is modelled as `List Bool` together with a length hypothesis
  where the length matters.
* A guppy `panic` is modelled as the error branch of `Except GuppyPanic`,
  carrying the panic message.
-/

/-- A guppy `panic(msg)`: fatal, aborts the call, carries the message. -/
structure GuppyPanic where
  msg : String
deriving DecidableEq, Repr

/-- One step of the packing loop body from `pack_int`:
`acc = acc << 1; acc = acc | int(b)`. -/
def packStep (acc : Nat) (b : Bool) : Nat :=
  (acc <<< 1) ||| (bif b then 1 else 0)

/-- The accumulator value computed by the `for b in data` loop of `pack_int`,
starting from `acc = 0`. -/
def packVal (data : List Bool) : Nat :=
  data.foldl packStep 0

/-- Embedding of `pack_int` (`cudaq_qec.py` lines 108-119): panics with
"Invalid array size for decoder" when `N > 64`, otherwise folds the bits
big-endian. -/
def pack_int (N : Nat) (data : List Bool) : Except GuppyPanic Nat :=
  if N > 64 then
    Except.error ⟨"Invalid array size for decoder"⟩
  else
    Except.ok (packVal data)

/-- Embedding of `unpack_int` (`cudaq_qec.py` lines 122-126):
`array(bool(1 & (data >> (N - n - 1))) for n in range(N))`.
Note the source performs no size check on `N`. -/
def unpack_int (data : Nat) (N : Nat) : List Bool :=
  (List.range N).map (fun n => decide (1 &&& (data >>> (N - n - 1)) ≠ 0))

/-! ### Signature validation (`definition.py`)

The slice of the guppylang type grammar that `RawGpuFunctionDef.sanitise_type`
inspects: numeric scalar types, the `None` type, opaque types (whose definition
may or may not be a `GpuModuleTypeDef`), and everything else.
-/

/-- The numeric kinds of `NumericType` (`sanitise_type` matches only the class). -/
inductive NumKind where
  | natKind
  | intKind
  | floatKind
deriving DecidableEq, Repr

/-- The guppylang types distinguished by `sanitise_type` and `gpu_module_info`. -/
inductive GpuType where
  /-- A `NumericType` scalar. -/
  | numericType (kind : NumKind)
  /-- The `NoneType`. -/
  | noneType
  /-- An `OpaqueType` whose definition is a `GpuModuleTypeDef` (module file and
  optional config file). -/
  | moduleType (gpuFile : String) (gpuConfig : Option String)
  /-- Any other type (other opaque types, tuples, arrays, ...). -/
  | otherType (name : String)
deriving DecidableEq, Repr

/-- `InputFlags` is a bit-flag enum in guppylang; the validator compares the
whole flag set against `InputFlags.Inout` for equality, so combinations are
representable. -/
structure InputFlags where
  inoutFlag : Bool
  ownedFlag : Bool
  comptimeFlag : Bool
  errorFlag : Bool
deriving DecidableEq, Repr

/-- `InputFlags.NoFlags`. -/
def InputFlags.NoFlags : InputFlags := ⟨false, false, false, false⟩

/-- `InputFlags.Inout`. -/
def InputFlags.Inout : InputFlags := ⟨true, false, false, false⟩

/-- `InputFlags.Owned`. -/
def InputFlags.Owned : InputFlags := ⟨false, true, false, false⟩

/-- A `FuncInput`: a parameter type together with its flags. -/
structure FuncInput where
  ty : GpuType
  flags : InputFlags
deriving DecidableEq, Repr

/-- A `FunctionType`: ordered input parameters and the output type. -/
structure FunctionType where
  inputs : List FuncInput
  output : GpuType
deriving DecidableEq, Repr

/-- Embedding of `gpu_module_info` (`definition.py` lines 122-125): returns the
module/config file names when the type is an opaque GPU-module type. -/
def gpu_module_info (ty : GpuType) : Option (String × Option String) :=
  match ty with
  | .moduleType f c => some (f, c)
  | _ => none

/-- Embedding of `RawGpuFunctionDef.is_valid_gpu_type` (`definition.py` lines
60-65): only `NumericType` is valid. -/
def is_valid_gpu_type (ty : GpuType) : Bool :=
  match ty with
  | .numericType _ => true
  | _ => false

/-- The outcomes of `sanitise_type`: the two `GuppyError` diagnostics raised by
the source, plus the uncaught `IndexError` that `fun_ty.inputs[0]` raises when
the signature has no parameters at all. -/
inductive SanitiseError where
  | firstArgNotModule (ty : GpuType)
  | unconvertibleType (ty : GpuType)
  | indexError
deriving DecidableEq, Repr

/-- Embedding of `RawGpuFunctionDef.sanitise_type` (`definition.py` lines
41-58). `fun_ty.inputs[0]` is matched against
`FuncInput(ty=ty, flags=InputFlags.Inout) if gpu_module_info(ty) is not None`;
on failure `FirstArgNotModule` is raised. Then every later input must satisfy
`is_valid_gpu_type` (first offender raised as `UnconvertibleType`), and the
output must be numeric or `NoneType`. -/
def sanitise_type (fun_ty : FunctionType) : Except SanitiseError Unit :=
  match fun_ty.inputs with
  | [] => Except.error SanitiseError.indexError
  | first :: rest =>
    if first.flags = InputFlags.Inout ∧ (gpu_module_info first.ty).isSome then
      match rest.find? (fun inp => !is_valid_gpu_type inp.ty) with
      | some inp => Except.error (SanitiseError.unconvertibleType inp.ty)
      | none =>
        if is_valid_gpu_type fun_ty.output then Except.ok ()
        else
          match fun_ty.output with
          | .noneType => Except.ok ()
          | _ => Except.error (SanitiseError.unconvertibleType fun_ty.output)
    else Except.error (SanitiseError.firstArgNotModule first.ty)

/-- The accepted example signature from the spec:
`(handle: DeviceHandle [in-out], decoder_id: int, x: int) -> int`. -/
def acceptExampleSig : FunctionType :=
  { inputs := [ { ty := .moduleType "cudaq-qec" none, flags := InputFlags.Inout }
              , { ty := .numericType .intKind, flags := InputFlags.NoFlags }
              , { ty := .numericType .intKind, flags := InputFlags.NoFlags } ]
  , output := .numericType .intKind }

/-! ### MD5 and `mkhash` (`cudaq_qec.py` lines 32-35)

`mkhash(x) = int.from_bytes(md5(x).digest()[:4], byteorder="little")`.
The MD5 digest is embedded below (RFC 1321) over byte lists, with 32-bit words
as `Nat` reduced `% 2 ^ 32`.
-/

/-- The 64 MD5 sine-derived round constants `K[i] = floor(2^32 * |sin(i+1)|)`. -/
def md5K : List Nat :=
  [ 0xd76aa478, 0xe8c7b756, 0x242070db, 0xc1bdceee
  , 0xf57c0faf, 0x4787c62a, 0xa8304613, 0xfd469501
  , 0x698098d8, 0x8b44f7af, 0xffff5bb1, 0x895cd7be
  , 0x6b901122, 0xfd987193, 0xa679438e, 0x49b40821
  , 0xf61e2562, 0xc040b340, 0x265e5a51, 0xe9b6c7aa
  , 0xd62f105d, 0x02441453, 0xd8a1e681, 0xe7d3fbc8
  , 0x21e1cde6, 0xc33707d6, 0xf4d50d87, 0x455a14ed
  , 0xa9e3e905, 0xfcefa3f8, 0x676f02d9, 0x8d2a4c8a
  , 0xfffa3942, 0x8771f681, 0x6d9d6122, 0xfde5380c
  , 0xa4beea44, 0x4bdecfa9, 0xf6bb4b60, 0xbebfbc70
  , 0x289b7ec6, 0xeaa127fa, 0xd4ef3085, 0x04881d05
  , 0xd9d4d039, 0xe6db99e5, 0x1fa27cf8, 0xc4ac5665
  , 0xf4292244, 0x432aff97, 0xab9423a7, 0xfc93a039
  , 0x655b59c3, 0x8f0ccc92, 0xffeff47d, 0x85845dd1
  , 0x6fa87e4f, 0xfe2ce6e0, 0xa3014314, 0x4e0811a1
  , 0xf7537e82, 0xbd3af235, 0x2ad7d2bb, 0xeb86d391 ]

/-- The 64 MD5 per-round left-rotation amounts. -/
def md5S : List Nat :=
  [ 7, 12, 17, 22, 7, 12, 17, 22, 7, 12, 17, 22, 7, 12, 17, 22
  , 5, 9, 14, 20, 5, 9, 14, 20, 5, 9, 14, 20, 5, 9, 14, 20
  , 4, 11, 16, 23, 4, 11, 16, 23, 4, 11, 16, 23, 4, 11, 16, 23
  , 6, 10, 15, 21, 6, 10, 15, 21, 6, 10, 15, 21, 6, 10, 15, 21 ]

/-- 32-bit left rotation. -/
def rotl32 (x s : Nat) : Nat :=
  ((x <<< s) ||| (x >>> (32 - s))) % 2 ^ 32

/-- The four 32-bit MD5 chaining words. -/
structure MD5State where
  a : Nat
  b : Nat
  c : Nat
  d : Nat
deriving DecidableEq, Repr

/-- The MD5 initialisation vector. -/
def md5Init : MD5State :=
  ⟨0x67452301, 0xefcdab89, 0x98badcfe, 0x10325476⟩

/-- One MD5 round `i` (0-63) over the 16 message words `m`. -/
def md5Round (m : List Nat) (st : MD5State) (i : Nat) : MD5State :=
  let fg : Nat × Nat :=
    if i < 16 then ((st.b &&& st.c) ||| ((st.b ^^^ 0xffffffff) &&& st.d), i)
    else if i < 32 then
      ((st.d &&& st.b) ||| ((st.d ^^^ 0xffffffff) &&& st.c), (5 * i + 1) % 16)
    else if i < 48 then (st.b ^^^ st.c ^^^ st.d, (3 * i + 5) % 16)
    else (st.c ^^^ (st.b ||| (st.d ^^^ 0xffffffff)), (7 * i) % 16)
  let f := (fg.1 + st.a + md5K.getD i 0 + m.getD fg.2 0) % 2 ^ 32
  ⟨st.d, (st.b + rotl32 f (md5S.getD i 0)) % 2 ^ 32, st.b, st.c⟩

/-- Interpret 4 bytes as a little-endian 32-bit word. -/
def le32 (b0 b1 b2 b3 : Nat) : Nat :=
  b0 + b1 * 2 ^ 8 + b2 * 2 ^ 16 + b3 * 2 ^ 24

/-- Split a byte list into little-endian 32-bit words. -/
def toWords : List Nat → List Nat
  | b0 :: b1 :: b2 :: b3 :: rest => le32 b0 b1 b2 b3 :: toWords rest
  | _ => []

/-- Serialise a 32-bit word to 4 little-endian bytes. -/
def word2bytesLE (w : Nat) : List Nat :=
  [w % 256, w >>> 8 % 256, w >>> 16 % 256, w >>> 24 % 256]

/-- Process one 64-byte MD5 chunk. -/
def md5ProcessChunk (st : MD5State) (chunk : List Nat) : MD5State :=
  let m := toWords chunk
  let r := (List.range 64).foldl (md5Round m) st
  ⟨(st.a + r.a) % 2 ^ 32, (st.b + r.b) % 2 ^ 32,
   (st.c + r.c) % 2 ^ 32, (st.d + r.d) % 2 ^ 32⟩

/-- MD5 padding: append `0x80`, zero-pad to 56 mod 64, append the 8-byte
little-endian bit length. -/
def md5Pad (msg : List Nat) : List Nat :=
  let len := msg.length
  let zeros := (120 - (len + 1) % 64) % 64
  msg ++ [0x80] ++ List.replicate zeros 0
    ++ (List.range 8).map (fun i => (len * 8) >>> (8 * i) % 256)

/-- Split a list into 64-byte chunks, with an explicit fuel argument so that
the recursion is structural (each step drops at least one element, so
`l.length` fuel always suffices). -/
def chunksAux : Nat → List Nat → List (List Nat)
  | 0, _ => []
  | fuel + 1, l => if l = [] then [] else l.take 64 :: chunksAux fuel (l.drop 64)

/-- Split a list into 64-byte chunks. -/
def chunks64 (l : List Nat) : List (List Nat) :=
  chunksAux l.length l

/-- The MD5 digest of a byte list: 16 bytes. -/
def md5 (msg : List Nat) : List Nat :=
  let st := (chunks64 (md5Pad msg)).foldl md5ProcessChunk md5Init
  word2bytesLE st.a ++ word2bytesLE st.b ++ word2bytesLE st.c ++ word2bytesLE st.d

/-- Python's `int.from_bytes(bs, byteorder="little")`. -/
def int_from_bytes_le (bs : List Nat) : Nat :=
  bs.foldr (fun b acc => b + 256 * acc) 0

/-- Embedding of `mkhash` (`cudaq_qec.py` lines 32-35):
`int.from_bytes(md5(x).digest()[:4], byteorder="little")`. -/
def mkhash (x : List Nat) : Nat :=
  int_from_bytes_le ((md5 x).take 4)

/-- The UTF-8 bytes of `"reset_decoder_ui64"`, the name hashed for the
`reset_decoder` call id. -/
def resetDecoderName : List Nat :=
  [114, 101, 115, 101, 116, 95, 100, 101, 99, 111, 100, 101, 114,
   95, 117, 105, 54, 52]

/-! ### Arithmetic characterisation of the packing loop -/

theorem packStep_eq (acc : Nat) (b : Bool) :
    packStep acc b = 2 * acc + (bif b then 1 else 0) := by
  have hb : (bif b then 1 else 0) < 2 ^ 1 := by cases b <;> simp
  have h := Nat.mul_add_lt_is_or (i := 1) hb acc
  simp only [packStep, Nat.shiftLeft_eq, pow_one, Nat.mul_comm] at *
  omega

theorem foldl_packStep_acc (v : List Bool) :
    ∀ acc : Nat, v.foldl packStep acc = acc * 2 ^ v.length + packVal v := by
  induction v with
  | nil => intro acc; simp [packVal]
  | cons b bs ih =>
    intro acc
    have h1 : (b :: bs).foldl packStep acc = bs.foldl packStep (packStep acc b) := rfl
    have h2 : packVal (b :: bs) = bs.foldl packStep (packStep 0 b) := rfl
    rw [h1, h2, ih (packStep acc b), ih (packStep 0 b),
      packStep_eq, packStep_eq]
    simp only [List.length_cons, pow_succ]
    ring

theorem packVal_cons (b : Bool) (bs : List Bool) :
    packVal (b :: bs) = (bif b then 1 else 0) * 2 ^ bs.length + packVal bs := by
  have h2 : packVal (b :: bs) = bs.foldl packStep (packStep 0 b) := rfl
  rw [h2, foldl_packStep_acc, packStep_eq]
  simp

theorem packVal_lt (v : List Bool) : packVal v < 2 ^ v.length := by
  induction v with
  | nil => simp [packVal]
  | cons b bs ih =>
    rw [packVal_cons]
    have hb : (bif b then 1 else 0) ≤ 1 := by cases b <;> simp
    simp only [List.length_cons, pow_succ]
    nlinarith

theorem packVal_append_singleton (v : List Bool) (b : Bool) :
    packVal (v ++ [b]) = 2 * packVal v + (bif b then 1 else 0) := by
  have h : packVal (v ++ [b]) = [b].foldl packStep (packVal v) := by
    simp [packVal, List.foldl_append]
  rw [h]
  simp [List.foldl, packStep_eq]

theorem packVal_getBit (v : List Bool) :
    ∀ (i : Nat) (hi : i < v.length),
      packVal v / 2 ^ (v.length - 1 - i) % 2 = (bif v[i] then 1 else 0) := by
  induction v using List.reverseRecOn with
  | nil => intro i hi; simp at hi
  | append_singleton v b ih =>
    intro i hi
    rw [packVal_append_singleton]
    have hlen : (v ++ [b]).length = v.length + 1 := by simp
    simp only [hlen] at hi ⊢
    rcases Nat.lt_or_ge i v.length with hlt | hge
    · have hexp : v.length + 1 - 1 - i = (v.length - 1 - i) + 1 := by omega
      rw [hexp, pow_succ]
      have hdiv : (2 * packVal v + (bif b then 1 else 0)) / (2 ^ (v.length - 1 - i) * 2)
          = packVal v / 2 ^ (v.length - 1 - i) := by
        rw [Nat.mul_comm (2 ^ (v.length - 1 - i)) 2, ← Nat.div_div_eq_div_mul]
        have hb : (bif b then 1 else 0) ≤ 1 := by cases b <;> simp
        have h2 : (2 * packVal v + (bif b then 1 else 0)) / 2 = packVal v := by omega
        rw [h2]
      rw [hdiv, List.getElem_append_left hlt]
      exact ih i hlt
    · have hie : i = v.length := by omega
      subst hie
      have hexp : v.length + 1 - 1 - v.length = 0 := by omega
      rw [hexp, pow_zero, Nat.div_one]
      have hb : (bif b then 1 else 0) ≤ 1 := by cases b <;> simp
      have hmod : (2 * packVal v + (bif b then 1 else 0)) % 2 = (bif b then 1 else 0) := by
        omega
      rw [hmod]
      have hget : getElem (v ++ [b]) v.length (by simp) = b := by
        rw [List.getElem_append_right (Nat.le_refl _)]
        simp
      rw [hget]

/-! ### Characterisation of `unpack_int` -/

theorem unpack_int_length (data N : Nat) : (unpack_int data N).length = N := by
  simp [unpack_int]

theorem unpack_int_getElem (data N n : Nat) (h : n < N) :
    getElem (unpack_int data N) n (by rw [unpack_int_length]; exact h) =
      decide (data / 2 ^ (N - n - 1) % 2 = 1) := by
  simp only [unpack_int, List.getElem_map, List.getElem_range]
  rw [Nat.one_and_eq_mod_two, Nat.shiftRight_eq_div_pow]
  rcases Nat.mod_two_eq_zero_or_one (data / 2 ^ (N - n - 1)) with h0 | h1
  · simp [h0]
  · simp [h1]

theorem unpack_int_succ (data N : Nat) :
    unpack_int data (N + 1) =
      decide (1 &&& (data >>> N) ≠ 0) :: unpack_int data N := by
  simp only [unpack_int, List.range_succ_eq_map, List.map_cons, List.map_map]
  congr 1
  apply List.map_congr_left
  intro a ha
  simp only [Function.comp_apply, Nat.succ_eq_add_one]
  have h : N + 1 - (a + 1) - 1 = N - a - 1 := by omega
  rw [h]

theorem packVal_unpack_int (data N : Nat) :
    packVal (unpack_int data N) = data % 2 ^ N := by
  induction N with
  | zero => simp [unpack_int, packVal, Nat.mod_one]
  | succ N ih =>
    rw [unpack_int_succ, packVal_cons, unpack_int_length, ih]
    have hbit : (bif decide (1 &&& (data >>> N) ≠ 0) then 1 else 0)
        = data / 2 ^ N % 2 := by
      rw [Nat.one_and_eq_mod_two, Nat.shiftRight_eq_div_pow]
      rcases Nat.mod_two_eq_zero_or_one (data / 2 ^ N) with h0 | h1
      · simp [h0]
      · simp [h1]
    rw [hbit]
    have hmul : data % 2 ^ (N + 1) = data % (2 ^ N * 2) := by rw [pow_succ]
    rw [hmul, Nat.mod_mul]
    ring

/-! ### Claim theorems: bit packing -/

/-- C1: Round-trip law: for every `N` with `1 ≤ N ≤ 64` and every boolean array
`v` of length `N`, `pack_int N v` succeeds and `unpack_int` of the packed word
at width `N` returns an array equal to `v`. -/
theorem pack_unpack_roundtrip (N : Nat) (v : List Bool)
    (h1 : 1 ≤ N) (h2 : N ≤ 64) (hlen : v.length = N) :
    pack_int N v = Except.ok (packVal v) ∧ unpack_int (packVal v) N = v := by
  constructor
  · rw [pack_int, if_neg (by omega)]
  · subst hlen
    apply List.ext_getElem
    · exact unpack_int_length _ _
    · intro i hi1 hi2
      rw [unpack_int_getElem _ _ i (by rw [← unpack_int_length (packVal v) v.length]; exact hi1)]
      have hb := packVal_getBit v i hi2
      have hexp : v.length - i - 1 = v.length - 1 - i := by omega
      rw [hexp, hb]
      cases hvi : v[i] <;> simp

/-- C1 witness: the round trip at `N = 4`, `v = [1,0,1,1]`. -/
theorem pack_unpack_roundtrip_witness :
    pack_int 4 [true, false, true, true] = Except.ok (packVal [true, false, true, true]) ∧
      unpack_int (packVal [true, false, true, true]) 4 = [true, false, true, true] :=
  pack_unpack_roundtrip 4 [true, false, true, true] (by decide) (by decide) (by decide)

/-- Bits of `w % 2 ^ N` agree with bits of `w` below position `N`. -/
theorem mod_pow_div_mod (w N k : Nat) (hk : k < N) :
    w % 2 ^ N / 2 ^ k % 2 = w / 2 ^ k % 2 := by
  have h1 := Nat.testBit_mod_two_pow w N k
  rw [decide_eq_true hk, Bool.true_and] at h1
  simp only [Nat.testBit_to_div_mod] at h1
  have h2 := decide_eq_decide.mp h1
  have ha := Nat.mod_two_eq_zero_or_one (w % 2 ^ N / 2 ^ k)
  have hb := Nat.mod_two_eq_zero_or_one (w / 2 ^ k)
  omega

/-- `unpack_int` only looks at the low `N` bits of the word. -/
theorem unpack_int_mod_pow (w N : Nat) :
    unpack_int w N = unpack_int (w % 2 ^ N) N := by
  apply List.ext_getElem
  · rw [unpack_int_length, unpack_int_length]
  · intro i hi1 hi2
    rw [unpack_int_length] at hi1
    rw [unpack_int_getElem _ _ i hi1, unpack_int_getElem _ _ i hi1,
      mod_pow_div_mod w N (N - i - 1) (by omega)]

/-- C4: Mask law and high-bit tolerance: for every `N` with `1 ≤ N ≤ 64` and
every word `w`, `pack_int N (unpack_int w N)` succeeds with value
`w &&& ((1 <<< N) - 1)`, and `unpack_int` silently ignores the bits of `w` at
position `N` and above (it never fails and returns the same array as for the
masked word). -/
theorem pack_unpack_mask_law (N w : Nat) (h1 : 1 ≤ N) (h2 : N ≤ 64) :
    pack_int N (unpack_int w N) = Except.ok (w &&& ((1 <<< N) - 1)) ∧
      unpack_int w N = unpack_int (w &&& ((1 <<< N) - 1)) N := by
  have hmask : w &&& ((1 <<< N) - 1) = w % 2 ^ N := by
    rw [Nat.shiftLeft_eq, one_mul, Nat.and_pow_two_sub_one_eq_mod]
  constructor
  · rw [pack_int, if_neg (by omega), packVal_unpack_int, hmask]
  · rw [hmask]
    exact unpack_int_mod_pow w N

/-- C4 witness: the mask law at `N = 4`, `w = 0xfb` (high bits ignored). -/
theorem pack_unpack_mask_law_witness :
    pack_int 4 (unpack_int 251 4) = Except.ok (251 &&& ((1 <<< 4) - 1)) ∧
      unpack_int 251 4 = unpack_int (251 &&& ((1 <<< 4) - 1)) 4 :=
  pack_unpack_mask_law 4 251 (by decide) (by decide)

/-- C5: Big-endian packing semantics: for every array of length `N ≤ 64`,
`pack_int` succeeds with the fold value, the result is `< 2 ^ N`, bit
`N - 1 - i` of the result is the array entry at index `i` (index 0 most
significant, index `N - 1` least significant), and concretely
`pack_int 4 [1,0,1,1] = 11` and `unpack_int 11 4 = [1,0,1,1]`. -/
theorem pack_int_big_endian (N : Nat) (data : List Bool)
    (h2 : N ≤ 64) (hlen : data.length = N) :
    pack_int N data = Except.ok (packVal data) ∧
      packVal data < 2 ^ N ∧
      (∀ (i : Nat) (hi : i < N),
        packVal data / 2 ^ (N - 1 - i) % 2
          = (bif getElem data i (by omega) then 1 else 0)) ∧
      pack_int 4 [true, false, true, true] = Except.ok 11 ∧
      unpack_int 11 4 = [true, false, true, true] := by
  subst hlen
  refine ⟨?_, ?_, ?_, rfl, rfl⟩
  · rw [pack_int, if_neg (by omega)]
  · exact packVal_lt data
  · intro i hi
    exact packVal_getBit data i hi

/-- C5 witness: the big-endian semantics at `N = 4`, `data = [1,0,1,1]`. -/
theorem pack_int_big_endian_witness :
    pack_int 4 [true, false, true, true] = Except.ok (packVal [true, false, true, true]) ∧
      packVal [true, false, true, true] < 2 ^ 4 ∧
      (∀ (i : Nat) (hi : i < 4),
        packVal [true, false, true, true] / 2 ^ (4 - 1 - i) % 2
          = (bif getElem [true, false, true, true] i (by simpa using hi) then 1 else 0)) ∧
      pack_int 4 [true, false, true, true] = Except.ok 11 ∧
      unpack_int 11 4 = [true, false, true, true] :=
  pack_int_big_endian 4 [true, false, true, true] (by decide) (by decide)

/-- C6: Size ceiling on pack: for every `N > 64` and any input array,
`pack_int` fails with the fatal panic `"Invalid array size for decoder"` (the
`SizeLimitExceeded` condition), producing no value; and `pack_int` at `N = 64`
succeeds on every array. -/
theorem pack_int_size_ceiling (N : Nat) (data : List Bool) (h : N > 64) :
    pack_int N data = Except.error ⟨"Invalid array size for decoder"⟩ ∧
      (∀ data64 : List Bool, pack_int 64 data64 = Except.ok (packVal data64)) := by
  constructor
  · rw [pack_int, if_pos h]
  · intro d
    rw [pack_int, if_neg (by omega)]

/-- C6 witness: `pack_int` at `N = 65` panics; `N = 64` succeeds. -/
theorem pack_int_size_ceiling_witness :
    pack_int 65 [] = Except.error ⟨"Invalid array size for decoder"⟩ ∧
      (∀ data64 : List Bool, pack_int 64 data64 = Except.ok (packVal data64)) :=
  pack_int_size_ceiling 65 [] (by omega)

/-- C2 counterexample: the claim says `unpack_int` at width `N = 65` fails with
`SizeLimitExceeded`; in the source `unpack_int` performs no size check at all,
and at `N = 65` it succeeds, returning a full 65-element array. -/
theorem unpack_int_no_size_check_counterexample :
    unpack_int 0 65 = List.replicate 65 false ∧ (unpack_int 0 65).length = 65 := by
  constructor
  · decide
  · decide

/-- C2 (amended): `unpack_int` enforces no size ceiling: for every requested
width `N` — including every `N > 64` — and every input word, it succeeds and
returns an array of length `N` whose entries are the requested bits; the
64-bit ceiling is enforced only by `pack_int`. In particular `N = 64`
succeeds, as the claim states. -/
theorem unpack_int_no_size_limit (data N : Nat) :
    (unpack_int data N).length = N ∧
      ∀ (n : Nat) (hn : n < N),
        getElem (unpack_int data N) n (by rw [unpack_int_length]; exact hn)
          = decide (data / 2 ^ (N - n - 1) % 2 = 1) := by
  refine ⟨unpack_int_length data N, ?_⟩
  intro n hn
  exact unpack_int_getElem data N n hn

/-- C2 witness: the amended claim applied at `data = 11`, `N = 65`. -/
theorem unpack_int_no_size_limit_witness :
    (unpack_int 11 65).length = 65 :=
  (unpack_int_no_size_limit 11 65).1

/-- C10: Zero-width edge case: `pack_int 0 []` succeeds and returns `0`,
`unpack_int w 0` returns the empty array for every word `w`, and the
round trip at `N = 0` holds trivially. -/
theorem pack_unpack_zero_width :
    pack_int 0 [] = Except.ok 0 ∧ (∀ w : Nat, unpack_int w 0 = []) ∧
      unpack_int 0 0 = [] := by
  refine ⟨rfl, ?_, rfl⟩
  intro w
  rfl

/-! ### Claim theorems: signature validation -/

/-- Unfolding of `sanitise_type` on a signature with at least one parameter. -/
theorem sanitise_type_cons (first : FuncInput) (rest : List FuncInput) (out : GpuType) :
    sanitise_type ⟨first :: rest, out⟩ =
      if first.flags = InputFlags.Inout ∧ (gpu_module_info first.ty).isSome then
        match rest.find? (fun inp => !is_valid_gpu_type inp.ty) with
        | some inp => Except.error (SanitiseError.unconvertibleType inp.ty)
        | none =>
          if is_valid_gpu_type out then Except.ok ()
          else
            match out with
            | .noneType => Except.ok ()
            | _ => Except.error (SanitiseError.unconvertibleType out)
      else Except.error (SanitiseError.firstArgNotModule first.ty) := rfl

/-- When the first parameter passes and some later parameter is invalid, the
first offender is raised as `UnconvertibleType`. -/
theorem sanitise_find_some (first : FuncInput) (rest : List FuncInput) (out : GpuType)
    (hc : first.flags = InputFlags.Inout ∧ (gpu_module_info first.ty).isSome)
    (inp : FuncInput) (hfind : rest.find? (fun inp => !is_valid_gpu_type inp.ty) = some inp) :
    sanitise_type ⟨first :: rest, out⟩
      = Except.error (SanitiseError.unconvertibleType inp.ty) := by
  rw [sanitise_type_cons, if_pos hc, hfind]

/-- When the first parameter passes, all later parameters are valid and the
output is numeric, validation succeeds. -/
theorem sanitise_find_none_out_ok (first : FuncInput) (rest : List FuncInput) (out : GpuType)
    (hc : first.flags = InputFlags.Inout ∧ (gpu_module_info first.ty).isSome)
    (hfind : rest.find? (fun inp => !is_valid_gpu_type inp.ty) = none)
    (hout : is_valid_gpu_type out) :
    sanitise_type ⟨first :: rest, out⟩ = Except.ok () := by
  rw [sanitise_type_cons, if_pos hc, hfind]
  simp [hout]

/-- When the first parameter passes, all later parameters are valid and the
output is `None`, validation succeeds. -/
theorem sanitise_find_none_out_none (first : FuncInput) (rest : List FuncInput)
    (hc : first.flags = InputFlags.Inout ∧ (gpu_module_info first.ty).isSome)
    (hfind : rest.find? (fun inp => !is_valid_gpu_type inp.ty) = none) :
    sanitise_type ⟨first :: rest, GpuType.noneType⟩ = Except.ok () := by
  rw [sanitise_type_cons, if_pos hc, hfind]
  rfl

/-- When the first parameter passes, all later parameters are valid but the
output is neither numeric nor `None`, the output is raised as
`UnconvertibleType`. -/
theorem sanitise_find_none_out_bad (first : FuncInput) (rest : List FuncInput) (out : GpuType)
    (hc : first.flags = InputFlags.Inout ∧ (gpu_module_info first.ty).isSome)
    (hfind : rest.find? (fun inp => !is_valid_gpu_type inp.ty) = none)
    (hout : is_valid_gpu_type out = false) (hnone : out ≠ GpuType.noneType) :
    sanitise_type ⟨first :: rest, out⟩
      = Except.error (SanitiseError.unconvertibleType out) := by
  rw [sanitise_type_cons, if_pos hc, hfind, if_neg (by simp [hout])]
  cases out <;> simp_all

/-- When the first parameter passes its check, the result is never
`FirstArgNotModule`. -/
theorem sanitise_not_firstArg_of_cond (first : FuncInput) (rest : List FuncInput)
    (out : GpuType)
    (hc : first.flags = InputFlags.Inout ∧ (gpu_module_info first.ty).isSome) :
    ∀ ty, sanitise_type ⟨first :: rest, out⟩
      ≠ Except.error (SanitiseError.firstArgNotModule ty) := by
  intro ty hty
  cases hfind : rest.find? (fun inp => !is_valid_gpu_type inp.ty) with
  | none =>
    by_cases hout : is_valid_gpu_type out
    · rw [sanitise_find_none_out_ok first rest out hc hfind hout] at hty
      exact Except.noConfusion hty
    · by_cases hnone : out = GpuType.noneType
      · subst hnone
        rw [sanitise_find_none_out_none first rest hc hfind] at hty
        exact Except.noConfusion hty
      · rw [sanitise_find_none_out_bad first rest out hc hfind (by simp_all) hnone] at hty
        injection hty with h2
        exact SanitiseError.noConfusion h2
  | some inp =>
    rw [sanitise_find_some first rest out hc inp hfind] at hty
    injection hty with h2
    exact SanitiseError.noConfusion h2

/-- C3 counterexample: the claim requires `FirstArgNotModule` on a signature
with no parameters, but the source evaluates `fun_ty.inputs[0]` first, which
raises an uncaught `IndexError` instead. -/
theorem sanitise_type_empty_counterexample :
    sanitise_type ⟨[], GpuType.noneType⟩ = Except.error SanitiseError.indexError ∧
      (match sanitise_type ⟨[], GpuType.noneType⟩ with
        | Except.error (SanitiseError.firstArgNotModule _) => False
        | _ => True) :=
  ⟨rfl, trivial⟩

/-- C3 (amended): on every signature with at least one parameter, validation
fails with `Err(FirstArgNotModule)` exactly when the first parameter's type is
not the device/module handle type or it is not passed under the in-out
ownership flag, and the error carries the first parameter's type; a signature
with no parameters instead raises an uncaught index error. The accept example
`(handle: module [in-out], decoder_id: int, x: int) -> int` validates
successfully. -/
theorem gpu_sig_first_arg_validation (ft : FunctionType) (first : FuncInput)
    (rest : List FuncInput) (h : ft.inputs = first :: rest) :
    ((∃ ty, sanitise_type ft = Except.error (SanitiseError.firstArgNotModule ty)) ↔
      ¬(first.flags = InputFlags.Inout ∧ (gpu_module_info first.ty).isSome = true)) ∧
    (∀ ty, sanitise_type ft = Except.error (SanitiseError.firstArgNotModule ty) →
      ty = first.ty) ∧
    sanitise_type acceptExampleSig = Except.ok () := by
  obtain ⟨ins, out⟩ := ft
  replace h : ins = first :: rest := h
  subst h
  refine ⟨⟨?_, ?_⟩, ?_, rfl⟩
  · rintro ⟨ty, hty⟩ hc
    exact sanitise_not_firstArg_of_cond first rest out hc ty hty
  · intro hc
    refine ⟨first.ty, ?_⟩
    rw [sanitise_type_cons, if_neg hc]
  · intro ty hty
    by_cases hc : first.flags = InputFlags.Inout ∧ (gpu_module_info first.ty).isSome = true
    · exact absurd hty (sanitise_not_firstArg_of_cond first rest out hc ty)
    · rw [sanitise_type_cons, if_neg hc] at hty
      injection hty with h2
      injection h2 with h3
      exact h3.symm

/-- C3 witness: the amended claim at the reject example `(decoder_id: int) -> int`
(first argument not a handle). -/
theorem gpu_sig_first_arg_validation_witness :
    ((∃ ty, sanitise_type ⟨[⟨GpuType.numericType NumKind.intKind, InputFlags.NoFlags⟩],
        GpuType.numericType NumKind.intKind⟩
        = Except.error (SanitiseError.firstArgNotModule ty)) ↔
      ¬((⟨GpuType.numericType NumKind.intKind, InputFlags.NoFlags⟩ : FuncInput).flags
          = InputFlags.Inout ∧
        (gpu_module_info (⟨GpuType.numericType NumKind.intKind,
          InputFlags.NoFlags⟩ : FuncInput).ty).isSome = true)) ∧
    (∀ ty, sanitise_type ⟨[⟨GpuType.numericType NumKind.intKind, InputFlags.NoFlags⟩],
        GpuType.numericType NumKind.intKind⟩
        = Except.error (SanitiseError.firstArgNotModule ty) →
      ty = (⟨GpuType.numericType NumKind.intKind, InputFlags.NoFlags⟩ : FuncInput).ty) ∧
    sanitise_type acceptExampleSig = Except.ok () :=
  gpu_sig_first_arg_validation
    ⟨[⟨GpuType.numericType NumKind.intKind, InputFlags.NoFlags⟩],
      GpuType.numericType NumKind.intKind⟩
    ⟨GpuType.numericType NumKind.intKind, InputFlags.NoFlags⟩ [] rfl

/-- C7: Non-numeric rejection: for every signature whose first parameter passes
the module-handle check, validation fails with `Err(UnconvertibleType)`
carrying an offending type exactly when some parameter after the first is not
numeric or the return type is neither `None` nor numeric; the carried type is
a non-numeric later parameter type or the return type; and a `None` return
type with numeric later parameters is accepted. -/
theorem gpu_sig_numeric_validation (ft : FunctionType) (first : FuncInput)
    (rest : List FuncInput) (h : ft.inputs = first :: rest)
    (hc1 : first.flags = InputFlags.Inout)
    (hc2 : (gpu_module_info first.ty).isSome = true) :
    ((∃ ty, sanitise_type ft = Except.error (SanitiseError.unconvertibleType ty)) ↔
      ((∃ inp ∈ rest, is_valid_gpu_type inp.ty = false) ∨
        (is_valid_gpu_type ft.output = false ∧ ft.output ≠ GpuType.noneType))) ∧
    (∀ ty, sanitise_type ft = Except.error (SanitiseError.unconvertibleType ty) →
      is_valid_gpu_type ty = false ∧ (ty ∈ rest.map FuncInput.ty ∨ ty = ft.output)) ∧
    ((∀ inp ∈ rest, is_valid_gpu_type inp.ty = true) → ft.output = GpuType.noneType →
      sanitise_type ft = Except.ok ()) := by
  obtain ⟨ins, out⟩ := ft
  replace h : ins = first :: rest := h
  subst h
  dsimp only
  have hc : first.flags = InputFlags.Inout ∧ (gpu_module_info first.ty).isSome :=
    ⟨hc1, hc2⟩
  cases hfind : rest.find? (fun inp => !is_valid_gpu_type inp.ty) with
  | some inp =>
    have hbad : is_valid_gpu_type inp.ty = false := by
      have hp := List.find?_some hfind
      simpa using hp
    have hmem : inp ∈ rest := List.mem_of_find?_eq_some hfind
    have heq := sanitise_find_some first rest out hc inp hfind
    refine ⟨?_, ?_, ?_⟩
    · exact ⟨fun _ => Or.inl ⟨inp, hmem, hbad⟩, fun _ => ⟨inp.ty, heq⟩⟩
    · intro ty hty
      rw [heq] at hty
      injection hty with h2
      injection h2 with h3
      subst h3
      exact ⟨hbad, Or.inl (List.mem_map_of_mem FuncInput.ty hmem)⟩
    · intro hall _
      exact absurd (hall inp hmem) (by simp [hbad])
  | none =>
    have hall : ∀ inp ∈ rest, is_valid_gpu_type inp.ty = true := by
      intro inp hm
      have hp := List.find?_eq_none.mp hfind inp hm
      simpa using hp
    cases hout : is_valid_gpu_type out with
    | true =>
      have heq := sanitise_find_none_out_ok first rest out hc hfind hout
      refine ⟨?_, ?_, ?_⟩
      · constructor
        · rintro ⟨ty, hty⟩
          rw [heq] at hty
          exact absurd hty (by simp)
        · rintro (⟨inp, hm, hbadinp⟩ | ⟨hbout, _⟩)
          · exact absurd (hall inp hm) (by simp [hbadinp])
          · exact absurd hbout (by simp)
      · intro ty hty
        rw [heq] at hty
        exact absurd hty (by simp)
      · intro _ _
        exact heq
    | false =>
      by_cases hnone : out = GpuType.noneType
      · subst hnone
        have heq := sanitise_find_none_out_none first rest hc hfind
        refine ⟨?_, ?_, ?_⟩
        · constructor
          · rintro ⟨ty, hty⟩
            rw [heq] at hty
            exact absurd hty (by simp)
          · rintro (⟨inp, hm, hbadinp⟩ | ⟨_, hne⟩)
            · exact absurd (hall inp hm) (by simp [hbadinp])
            · exact absurd rfl hne
        · intro ty hty
          rw [heq] at hty
          exact absurd hty (by simp)
        · intro _ _
          exact heq
      · have heq := sanitise_find_none_out_bad first rest out hc hfind hout hnone
        refine ⟨?_, ?_, ?_⟩
        · exact ⟨fun _ => Or.inr ⟨rfl, hnone⟩, fun _ => ⟨out, heq⟩⟩
        · intro ty hty
          rw [heq] at hty
          injection hty with h2
          injection h2 with h3
          subst h3
          exact ⟨by simp_all, Or.inr rfl⟩
        · intro _ hn
          exact absurd hn hnone

/-- C7 witness: the reject example
`(handle: module [in-out], payload: SomeStruct) -> none` fails with
`UnconvertibleType` naming `SomeStruct`. -/
theorem gpu_sig_numeric_validation_witness :
    ((∃ ty, sanitise_type ⟨[⟨GpuType.moduleType "cudaq-qec" none, InputFlags.Inout⟩,
        ⟨GpuType.otherType "SomeStruct", InputFlags.NoFlags⟩], GpuType.noneType⟩
        = Except.error (SanitiseError.unconvertibleType ty)) ↔
      ((∃ inp ∈ [(⟨GpuType.otherType "SomeStruct", InputFlags.NoFlags⟩ : FuncInput)],
          is_valid_gpu_type inp.ty = false) ∨
        (is_valid_gpu_type GpuType.noneType = false ∧
          GpuType.noneType ≠ GpuType.noneType))) ∧
    (∀ ty, sanitise_type ⟨[⟨GpuType.moduleType "cudaq-qec" none, InputFlags.Inout⟩,
        ⟨GpuType.otherType "SomeStruct", InputFlags.NoFlags⟩], GpuType.noneType⟩
        = Except.error (SanitiseError.unconvertibleType ty) →
      is_valid_gpu_type ty = false ∧
        (ty ∈ [(⟨GpuType.otherType "SomeStruct", InputFlags.NoFlags⟩ : FuncInput)].map
            FuncInput.ty ∨
          ty = GpuType.noneType)) ∧
    ((∀ inp ∈ [(⟨GpuType.otherType "SomeStruct", InputFlags.NoFlags⟩ : FuncInput)],
        is_valid_gpu_type inp.ty = true) →
      GpuType.noneType = GpuType.noneType →
      sanitise_type ⟨[⟨GpuType.moduleType "cudaq-qec" none, InputFlags.Inout⟩,
        ⟨GpuType.otherType "SomeStruct", InputFlags.NoFlags⟩], GpuType.noneType⟩
        = Except.ok ()) :=
  gpu_sig_numeric_validation
    ⟨[⟨GpuType.moduleType "cudaq-qec" none, InputFlags.Inout⟩,
      ⟨GpuType.otherType "SomeStruct", InputFlags.NoFlags⟩], GpuType.noneType⟩
    ⟨GpuType.moduleType "cudaq-qec" none, InputFlags.Inout⟩
    [⟨GpuType.otherType "SomeStruct", InputFlags.NoFlags⟩] rfl rfl rfl

/-- C9: Only the in-out flag is accepted on the first parameter: for every
signature whose first parameter has the module handle type but carries any
flag set other than `InputFlags.Inout` (in particular `Owned`, or no flags),
validation rejects it with `FirstArgNotModule` carrying the handle type. -/
theorem gpu_sig_inout_required (ft : FunctionType) (first : FuncInput)
    (rest : List FuncInput) (h : ft.inputs = first :: rest)
    (hmod : (gpu_module_info first.ty).isSome = true)
    (hflag : first.flags ≠ InputFlags.Inout) :
    sanitise_type ft = Except.error (SanitiseError.firstArgNotModule first.ty) := by
  obtain ⟨ins, out⟩ := ft
  replace h : ins = first :: rest := h
  subst h
  rw [sanitise_type_cons, if_neg]
  rintro ⟨h1, _⟩
  exact hflag h1

/-- C9 witness: a module handle passed with the `Owned` flag (full ownership
transfer) is rejected with `FirstArgNotModule`. -/
theorem gpu_sig_inout_required_witness :
    sanitise_type ⟨[⟨GpuType.moduleType "cudaq-qec" none, InputFlags.Owned⟩],
        GpuType.noneType⟩
      = Except.error (SanitiseError.firstArgNotModule
          (GpuType.moduleType "cudaq-qec" none)) :=
  gpu_sig_inout_required
    ⟨[⟨GpuType.moduleType "cudaq-qec" none, InputFlags.Owned⟩], GpuType.noneType⟩
    ⟨GpuType.moduleType "cudaq-qec" none, InputFlags.Owned⟩ [] rfl rfl (by decide)

/-! ### Claim theorems: call-id hashing -/

/-- Four little-endian bytes of a word always decode below `2 ^ 32`. -/
theorem int_from_bytes_le_word2bytesLE_lt (w : Nat) :
    int_from_bytes_le (word2bytesLE w) < 2 ^ 32 := by
  have h0 : w % 256 < 256 := Nat.mod_lt _ (by norm_num)
  have h1 : w >>> 8 % 256 < 256 := Nat.mod_lt _ (by norm_num)
  have h2 : w >>> 16 % 256 < 256 := Nat.mod_lt _ (by norm_num)
  have h3 : w >>> 24 % 256 < 256 := Nat.mod_lt _ (by norm_num)
  simp only [word2bytesLE, int_from_bytes_le, List.foldr_cons, List.foldr_nil]
  have hp : (2 : Nat) ^ 32 = 4294967296 := by norm_num
  rw [hp]
  omega

/-- The first four digest bytes are the little-endian serialisation of the
final `a` chaining word. -/
theorem md5_take_four (x : List Nat) :
    (md5 x).take 4
      = word2bytesLE ((chunks64 (md5Pad x)).foldl md5ProcessChunk md5Init).a := by
  simp only [md5, word2bytesLE, List.cons_append, List.nil_append,
    List.take_succ_cons, List.take_zero]

/-- C8: Call-id determinism: `mkhash` is a pure function of the byte string —
it equals the first 4 bytes of the MD5 digest interpreted as a little-endian
32-bit unsigned integer, its result always fits in 32 bits, and on the
declared name `"reset_decoder_ui64"` it yields the fixed call id
`228606885`. -/
theorem mkhash_md5_le32_determinism (x : List Nat) :
    mkhash x = int_from_bytes_le ((md5 x).take 4) ∧
      mkhash x < 2 ^ 32 ∧
      mkhash resetDecoderName = 228606885 := by
  refine ⟨rfl, ?_, by decide⟩
  rw [mkhash, md5_take_four]
  exact int_from_bytes_le_word2bytesLE_lt _
